import Mathlib

/-!
Verification development for the mam-poc media-asset-management backend.

Each definition is a shallow embedding of one Python function of the
repository, annotated with the file and line range it is translated from.
External effects (filesystem, libmagic, ffmpeg, the ORM session) are
modelled as explicit environment parameters or explicit state.
Machine floats are modelled by exact rationals; Python `int()` truncation
and `%`/`//` semantics are reproduced explicitly.
-/

namespace MamPoc

/-! ### Python primitives shared by several embeddings -/

/-- Python `int(x)` on a nonnegative or negative rational: truncation toward
zero (expressed with natural-number division on `|q|`). -/
def pyTrunc (q : ℚ) : ℤ :=
  if 0 ≤ q then ((q.num.toNat / q.den : ℕ) : ℤ)
  else -(((-q).num.toNat / (-q).den : ℕ) : ℤ)

/-- Python `a % b` on floats (sign of the divisor): `a - b * ⌊a / b⌋`. -/
def pyMod (a b : ℚ) : ℚ := a - b * (⌊a / b⌋ : ℚ)

/-- Python `a // b` on floats: `⌊a / b⌋` (returned as a rational). -/
def pyFloorDiv (a b : ℚ) : ℚ := (⌊a / b⌋ : ℚ)

/-- Value of a nonempty all-digit character list, `none` otherwise.
Building block for Python `int()` / `float()` parsing. -/
def digitsToNat : List Char → Option ℕ
  | [] => none
  | [c] => if c.isDigit then some (c.toNat - '0'.toNat) else none
  | c :: rest =>
    if c.isDigit then
      (digitsToNat rest).map (fun r => (c.toNat - '0'.toNat) * 10 ^ rest.length + r)
    else none

/-- Python `int(s)`: strip ASCII whitespace, optional single sign, then a
nonempty digit run.  (Digit-group underscores are not modelled; no input
considered in this development contains them.) -/
def pyIntParse (s : List Char) : Option ℤ :=
  let t := ((s.dropWhile Char.isWhitespace).reverse.dropWhile Char.isWhitespace).reverse
  match t with
  | '+' :: rest => (digitsToNat rest).map (fun n => (n : ℤ))
  | '-' :: rest => (digitsToNat rest).map (fun n => -(n : ℤ))
  | rest => (digitsToNat rest).map (fun n => (n : ℤ))

/-- Unsigned decimal body of a Python float literal: `digits`, `digits.`,
`digits.digits` or `.digits`, as an exact rational. -/
def floatBody (t : List Char) : Option ℚ :=
  match t.splitOn '.' with
  | [ds] => (digitsToNat ds).map (fun n => (n : ℚ))
  | [ds, fs] =>
    if ds = [] then
      (digitsToNat fs).map (fun f => (f : ℚ) / 10 ^ fs.length)
    else if fs = [] then
      (digitsToNat ds).map (fun n => (n : ℚ))
    else
      match digitsToNat ds, digitsToNat fs with
      | some n, some f => some ((n : ℚ) + (f : ℚ) / 10 ^ fs.length)
      | _, _ => none
  | _ => none

/-- Unsigned mantissa with an optional decimal exponent (`e`/`E`). -/
def floatMantissaExp (t : List Char) : Option ℚ :=
  match t.splitOn 'e' with
  | [body] =>
    match t.splitOn 'E' with
    | [b] => floatBody b
    | [b, ex] =>
      match floatBody b, pyIntParse ex with
      | some m, some k => some (m * 10 ^ k)
      | _, _ => none
    | _ => none
  | [body, ex] =>
    match floatBody body, pyIntParse ex with
    | some m, some k => some (m * 10 ^ k)
    | _, _ => none
  | _ => none

/-- Python `float(s)` on finite decimal literals: strip whitespace, optional
sign, decimal mantissa, optional exponent.  The result is the exact rational
value (binary-float rounding, `inf`/`nan` spellings and digit-group
underscores are not modelled). -/
def pyFloatParse (s : List Char) : Option ℚ :=
  let t := ((s.dropWhile Char.isWhitespace).reverse.dropWhile Char.isWhitespace).reverse
  match t with
  | '+' :: rest => floatMantissaExp rest
  | '-' :: rest => (floatMantissaExp rest).map (fun q => -q)
  | rest => floatMantissaExp rest

/-- Python `f"{n:02d}"` for a natural number: decimal, left-padded with `0`
to width 2 (wider numbers are printed in full). -/
def pad2 (n : ℕ) : String :=
  if n < 10 then "0" ++ toString n else toString n

/-- Python `round(x, 2)`: nearest multiple of 1/100.  Mathlib `round` is
half-up while Python floats round half-even; the two differ only at exact
.005 midpoints, which no value considered here hits. -/
def round2 (q : ℚ) : ℚ := (round (q * 100) : ℤ) / 100

/-- Python `round(x, 3)`: nearest multiple of 1/1000 (same remark as
`round2`). -/
def round3 (q : ℚ) : ℚ := (round (q * 1000) : ℤ) / 1000

namespace ScanVideos

/-!  Embeddings from `src/backend/scripts/scan_videos.py`. -/

/-- `format_fps` (scan_videos.py lines 59-67): convert an ffmpeg fps string
such as `"24000/1001"` to a decimal with 2-digit precision.
`'/' in fps_str` selects the rational branch; `num, den = map(int, split('/'))`
raises `ValueError` unless the split has exactly two int-parsable parts;
`num / den` raises `ZeroDivisionError` when `den = 0`; both exception kinds
are caught and yield `0.0`.  The `else` branch is `round(float(fps_str), 2)`
with `ValueError` also caught. -/
def format_fps (s : String) : ℚ :=
  let cs := s.toList
  if cs.contains '/' then
    match cs.splitOn '/' with
    | [a, b] =>
      match pyIntParse a, pyIntParse b with
      | some n, some d => if d = 0 then 0 else round2 ((n : ℚ) / (d : ℚ))
      | _, _ => 0
    | _ => 0
  else
    match pyFloatParse cs with
    | some q => round2 q
    | none => 0

/-- Hours component of `format_duration` (scan_videos.py line 71):
`int(seconds // 3600)`. -/
def durHours (s : ℚ) : ℤ := pyTrunc (pyFloorDiv s 3600)

/-- Minutes component (line 72): `int((seconds % 3600) // 60)`. -/
def durMinutes (s : ℚ) : ℤ := pyTrunc (pyFloorDiv (pyMod s 3600) 60)

/-- Seconds component (line 73): `int(seconds % 60)`. -/
def durSecs (s : ℚ) : ℤ := pyTrunc (pyMod s 60)

/-- `format_duration` (scan_videos.py lines 69-76): `HH:MM:SS` when at least
one full hour, `MM:SS` otherwise. -/
def format_duration (s : ℚ) : String :=
  if durHours s > 0 then
    pad2 (durHours s).toNat ++ ":" ++ pad2 (durMinutes s).toNat ++ ":" ++ pad2 (durSecs s).toNat
  else
    pad2 (durMinutes s).toNat ++ ":" ++ pad2 (durSecs s).toNat

end ScanVideos

namespace MaintenanceDurations

/-- `format_duration` (src/scripts/maintenance/durations.py lines 48-55):
`if not seconds: return "Unknown"`, otherwise always `HH:MM:SS`, including
a leading `00:` hour component for sub-hour durations. -/
def format_duration (s : ℚ) : String :=
  if s = 0 then "Unknown"
  else
    pad2 (ScanVideos.durHours s).toNat ++ ":" ++ pad2 (ScanVideos.durMinutes s).toNat
      ++ ":" ++ pad2 (ScanVideos.durSecs s).toNat

end MaintenanceDurations

/-! ### Helper lemmas about the Python primitives -/

theorem pyTrunc_eq_floor (q : ℚ) (h : 0 ≤ q) : pyTrunc q = ⌊q⌋ := by
  rw [pyTrunc, if_pos h]
  set n := q.num.toNat with hn
  set d := q.den with hdd
  have hd0 : 0 < d := q.pos
  have hd : 0 < (d : ℚ) := by exact_mod_cast hd0
  have hnum : ((n : ℕ) : ℚ) = (q.num : ℚ) := by
    exact_mod_cast congrArg (fun z : ℤ => (z : ℚ)) (Int.toNat_of_nonneg (Rat.num_nonneg.mpr h))
  have hq : q = ((n : ℕ) : ℚ) / ((d : ℕ) : ℚ) := by
    rw [hnum, hdd, Rat.num_div_den]
  symm
  rw [Int.floor_eq_iff]
  refine ⟨?_, ?_⟩
  · rw [hq, le_div_iff₀ hd]
    exact_mod_cast Nat.cast_le.mpr (Nat.div_mul_le_self n d)
  · rw [hq, div_lt_iff₀ hd]
    have hlt : n < (n / d + 1) * d := (Nat.div_lt_iff_lt_mul hd0).mp (Nat.lt_succ_self _)
    push_cast
    exact_mod_cast Nat.cast_lt.mpr hlt

theorem pyTrunc_intCast (z : ℤ) (h : 0 ≤ z) : pyTrunc (z : ℚ) = z := by
  rw [pyTrunc_eq_floor _ (by exact_mod_cast h), Int.floor_intCast]

theorem pyMod_nonneg (a b : ℚ) (hb : 0 < b) : 0 ≤ pyMod a b := by
  rw [pyMod]
  have h1 : (⌊a / b⌋ : ℚ) ≤ a / b := Int.floor_le _
  have h2 : b * (⌊a / b⌋ : ℚ) ≤ b * (a / b) := by
    exact mul_le_mul_of_nonneg_left h1 hb.le
  have h3 : b * (a / b) = a := by field_simp
  linarith

theorem pyMod_lt (a b : ℚ) (hb : 0 < b) : pyMod a b < b := by
  rw [pyMod]
  have h1 : a / b < (⌊a / b⌋ : ℚ) + 1 := Int.lt_floor_add_one _
  have h2 : b * (a / b) < b * ((⌊a / b⌋ : ℚ) + 1) := by
    exact mul_lt_mul_of_pos_left h1 hb
  have h3 : b * (a / b) = a := by field_simp
  nlinarith

namespace ScanVideos

theorem durHours_eq (s : ℚ) (h : 0 ≤ s) : durHours s = ⌊s / 3600⌋ := by
  rw [durHours, pyFloorDiv, pyTrunc_intCast]
  exact Int.floor_nonneg.mpr (by positivity)

theorem durMinutes_eq (s : ℚ) (h : 0 ≤ s) :
    durMinutes s = ⌊s / 60⌋ - 60 * ⌊s / 3600⌋ := by
  rw [durMinutes, pyFloorDiv, pyMod]
  have key : (s - 3600 * (⌊s / 3600⌋ : ℚ)) / 60 = s / 60 - (60 * ⌊s / 3600⌋ : ℤ) := by
    push_cast
    ring
  rw [key, Int.floor_sub_int]
  rw [pyTrunc_intCast]
  have h1 : (⌊s / 3600⌋ : ℚ) ≤ s / 3600 := Int.floor_le _
  have h2 : (60 : ℚ) * ⌊s / 3600⌋ ≤ s / 60 := by nlinarith
  have : (60 * ⌊s / 3600⌋ : ℤ) ≤ ⌊s / 60⌋ := by
    rw [Int.le_floor]
    push_cast
    linarith
  omega

theorem durSecs_eq (s : ℚ) (h : 0 ≤ s) : durSecs s = ⌊s⌋ - 60 * ⌊s / 60⌋ := by
  rw [durSecs, pyMod]
  have key : s - 60 * (⌊s / 60⌋ : ℚ) = s - (60 * ⌊s / 60⌋ : ℤ) := by push_cast; ring
  rw [key]
  have hfl : ⌊s - ((60 * ⌊s / 60⌋ : ℤ) : ℚ)⌋ = ⌊s⌋ - 60 * ⌊s / 60⌋ := Int.floor_sub_int _ _
  have h1 : (⌊s / 60⌋ : ℚ) ≤ s / 60 := Int.floor_le _
  have h2 : (60 * ⌊s / 60⌋ : ℤ) ≤ ⌊s⌋ := by
    rw [Int.le_floor]; push_cast; linarith
  rw [pyTrunc_eq_floor, hfl]
  have h3 : ((60 * ⌊s / 60⌋ : ℤ) : ℚ) ≤ (⌊s⌋ : ℚ) := by exact_mod_cast h2
  have h4 : (⌊s⌋ : ℚ) ≤ s := Int.floor_le s
  push_cast at h3 ⊢
  linarith

theorem durMinutes_lt (s : ℚ) (h : 0 ≤ s) : durMinutes s < 60 := by
  rw [durMinutes_eq s h]
  have h1 : s / 3600 < ⌊s / 3600⌋ + 1 := Int.lt_floor_add_one _
  have h2 : ⌊s / 60⌋ < 60 * (⌊s / 3600⌋ + 1) := by
    rw [Int.floor_lt]
    push_cast
    nlinarith
  omega

theorem durSecs_lt (s : ℚ) (h : 0 ≤ s) : durSecs s < 60 := by
  rw [durSecs_eq s h]
  have h1 : s / 60 < ⌊s / 60⌋ + 1 := Int.lt_floor_add_one _
  have h2 : ⌊s⌋ < 60 * (⌊s / 60⌋ + 1) := by
    rw [Int.floor_lt]
    push_cast
    nlinarith
  omega

theorem durHours_nonneg (s : ℚ) (h : 0 ≤ s) : 0 ≤ durHours s := by
  rw [durHours_eq s h]
  exact Int.floor_nonneg.mpr (by positivity)

theorem durMinutes_nonneg (s : ℚ) (h : 0 ≤ s) : 0 ≤ durMinutes s := by
  rw [durMinutes_eq s h]
  have h1 : (⌊s / 3600⌋ : ℚ) ≤ s / 3600 := Int.floor_le _
  have h2 : (60 * ⌊s / 3600⌋ : ℤ) ≤ ⌊s / 60⌋ := by
    rw [Int.le_floor]; push_cast; nlinarith
  omega

theorem durSecs_nonneg (s : ℚ) (h : 0 ≤ s) : 0 ≤ durSecs s := by
  rw [durSecs_eq s h]
  have h2 : (60 * ⌊s / 60⌋ : ℤ) ≤ ⌊s⌋ := by
    rw [Int.le_floor]; push_cast
    have := Int.floor_le (s / 60)
    nlinarith
  omega

theorem dur_decompose (s : ℚ) (h : 0 ≤ s) :
    3600 * durHours s + 60 * durMinutes s + durSecs s = ⌊s⌋ := by
  rw [durHours_eq s h, durMinutes_eq s h, durSecs_eq s h]
  ring

end ScanVideos

/-! ### Claims C3 and C4 -/

/-- Claim C3 — FPS parsing (scan_videos.py `format_fps`, lines 59-67): a
frame-rate string in `N/D` rational form parses to `N / D` rounded to two
decimal places; `"24000/1001"` gives exactly 23.98 (hence within ±0.01),
`"30/1"` gives 30.0, `"0/0"` gives 0.0, and any input neither of `N/D` form
nor a decimal literal gives 0.0; the function is total, so no exception can
escape. -/
theorem C3_fps_parsing :
    (∀ (s : String) (a b : List Char) (n d : ℤ),
        s.toList.contains '/' = true →
        s.toList.splitOn '/' = [a, b] →
        pyIntParse a = some n → pyIntParse b = some d → d ≠ 0 →
        ScanVideos.format_fps s = round2 ((n : ℚ) / (d : ℚ)))
    ∧ ScanVideos.format_fps "24000/1001" = 2398 / 100
    ∧ ScanVideos.format_fps "30/1" = 30
    ∧ ScanVideos.format_fps "0/0" = 0
    ∧ (∀ s : String, s.toList.contains '/' = false →
        pyFloatParse s.toList = none → ScanVideos.format_fps s = 0) := by
  have hgen : ∀ (s : String) (a b : List Char) (n d : ℤ),
      s.toList.contains '/' = true →
      s.toList.splitOn '/' = [a, b] →
      pyIntParse a = some n → pyIntParse b = some d → d ≠ 0 →
      ScanVideos.format_fps s = round2 ((n : ℚ) / (d : ℚ)) := by
    intro s a b n d h1 h2 h3 h4 h5
    simp only [ScanVideos.format_fps, h1, if_true, h2, h3, h4]
    rw [if_neg h5]
  refine ⟨hgen, ?_, ?_, ?_, ?_⟩
  · have h := hgen "24000/1001" ['2', '4', '0', '0', '0'] ['1', '0', '0', '1'] 24000 1001
      (by decide) (by decide) (by decide) (by decide) (by decide)
    have harg : (((24000 : ℤ)) : ℚ) / (((1001 : ℤ)) : ℚ) * 100 + 1 / 2
        = (((4801001 : ℤ)) : ℚ) / (((2002 : ℕ)) : ℚ) := by norm_num
    rw [h, round2, round_eq, harg, Rat.floor_intCast_div_natCast,
      show ((4801001 : ℤ) / (2002 : ℕ) : ℤ) = 2398 by decide]
    norm_num
  · have h := hgen "30/1" ['3', '0'] ['1'] 30 1
      (by decide) (by decide) (by decide) (by decide) (by decide)
    have harg : (((30 : ℤ)) : ℚ) / (((1 : ℤ)) : ℚ) * 100 + 1 / 2
        = (((6001 : ℤ)) : ℚ) / (((2 : ℕ)) : ℚ) := by norm_num
    rw [h, round2, round_eq, harg, Rat.floor_intCast_div_natCast,
      show ((6001 : ℤ) / (2 : ℕ) : ℤ) = 3000 by decide]
    norm_num
  · have h2 : List.splitOn '/' ['0', '/', '0'] = [['0'], ['0']] := by decide
    have h3 : pyIntParse ['0'] = some 0 := by decide
    simp [ScanVideos.format_fps, h2, h3]
  · intro s h1 h2
    have h1' : ¬ ('/' ∈ s.data) := by
      simpa [String.toList] using h1
    have h2' : pyFloatParse s.data = none := by
      simpa [String.toList] using h2
    simp [ScanVideos.format_fps, h1', h2']

/-- Witness for C3: the general `N/D` clause applied at the concrete string
`"30/1"`, with every hypothesis discharged by computation. -/
theorem C3_fps_parsing_witness :
    ScanVideos.format_fps "30/1" = round2 ((30 : ℚ) / (1 : ℚ)) :=
  C3_fps_parsing.1 "30/1" ['3', '0'] ['1'] 30 1
    (by decide) (by decide) (by decide) (by decide) (by decide)

/-- Claim C4, amended — duration formatting (scan_videos.py
`format_duration`, lines 69-76): for every nonnegative duration `s` the
rendered hour/minute/second components re-assemble to `⌊s⌋` (so a re-parse
reproduces `s` to within its containing second, exactly for whole-second
inputs), minutes and seconds stay below 60, `format_duration 0 = "00:00"`,
`format_duration 3661 = "01:01:01"`, and durations under one hour are
rendered with no hour component at all.  (The competing maintenance-script
variant falsifies the original claim; see `C4_duration_counterexample`.) -/
theorem C4_duration_formatting :
    (∀ s : ℚ, 0 ≤ s →
      3600 * ScanVideos.durHours s + 60 * ScanVideos.durMinutes s + ScanVideos.durSecs s = ⌊s⌋
      ∧ |((3600 * ScanVideos.durHours s + 60 * ScanVideos.durMinutes s
            + ScanVideos.durSecs s : ℤ) : ℚ) - s| < 1
      ∧ ScanVideos.durMinutes s < 60 ∧ ScanVideos.durSecs s < 60
      ∧ (s < 3600 → ScanVideos.format_duration s =
          pad2 (ScanVideos.durMinutes s).toNat ++ ":" ++ pad2 (ScanVideos.durSecs s).toNat))
    ∧ ScanVideos.format_duration 0 = "00:00"
    ∧ ScanVideos.format_duration 3661 = "01:01:01" := by
  have hcomp : ∀ s : ℚ, 0 ≤ s →
      3600 * ScanVideos.durHours s + 60 * ScanVideos.durMinutes s + ScanVideos.durSecs s = ⌊s⌋ :=
    ScanVideos.dur_decompose
  refine ⟨fun s hs => ⟨hcomp s hs, ?_, ScanVideos.durMinutes_lt s hs,
      ScanVideos.durSecs_lt s hs, ?_⟩, ?_, ?_⟩
  · rw [hcomp s hs]
    rw [abs_sub_lt_iff]
    constructor
    · have := Int.floor_le s
      linarith
    · have := Int.lt_floor_add_one s
      push_cast
      linarith
  · intro hlt
    have hz : ScanVideos.durHours s = 0 := by
      rw [ScanVideos.durHours_eq s hs]
      rw [Int.floor_eq_zero_iff]
      constructor
      · positivity
      · rw [div_lt_one (by norm_num : (0:ℚ) < 3600)]
        exact hlt
    rw [ScanVideos.format_duration, hz]
    norm_num
  · have h0 : (0 : ℚ) ≤ 0 := le_refl 0
    have hh : ScanVideos.durHours 0 = 0 := by
      rw [ScanVideos.durHours_eq 0 h0]
      norm_num
    have hm : ScanVideos.durMinutes 0 = 0 := by
      rw [ScanVideos.durMinutes_eq 0 h0]
      norm_num
    have hsec : ScanVideos.durSecs 0 = 0 := by
      rw [ScanVideos.durSecs_eq 0 h0]
      norm_num
    rw [ScanVideos.format_duration, hh, hm, hsec]
    decide
  · have h0 : (0 : ℚ) ≤ 3661 := by norm_num
    have e1 : ⌊((3661:ℚ)) / 3600⌋ = 1 := by
      rw [show ((3661:ℚ)) = (((3661:ℤ)):ℚ) by norm_num,
        show ((3600:ℚ)) = (((3600:ℕ)):ℚ) by norm_num, Rat.floor_intCast_div_natCast]
      decide
    have e2 : ⌊((3661:ℚ)) / 60⌋ = 61 := by
      rw [show ((3661:ℚ)) = (((3661:ℤ)):ℚ) by norm_num,
        show ((60:ℚ)) = (((60:ℕ)):ℚ) by norm_num, Rat.floor_intCast_div_natCast]
      decide
    have e3 : ⌊((3661:ℚ))⌋ = 3661 := by
      rw [show ((3661:ℚ)) = (((3661:ℤ)):ℚ) by norm_num, Int.floor_intCast]
    have hh : ScanVideos.durHours 3661 = 1 := by
      rw [ScanVideos.durHours_eq 3661 h0, e1]
    have hm : ScanVideos.durMinutes 3661 = 1 := by
      rw [ScanVideos.durMinutes_eq 3661 h0, e1, e2]
      norm_num
    have hsec : ScanVideos.durSecs 3661 = 1 := by
      rw [ScanVideos.durSecs_eq 3661 h0, e2, e3]
      norm_num
    rw [ScanVideos.format_duration, hh, hm, hsec]
    decide

/-- Witness for C4: the universally quantified clause applied at `s = 3661`. -/
theorem C4_duration_formatting_witness :
    3600 * ScanVideos.durHours 3661 + 60 * ScanVideos.durMinutes 3661
      + ScanVideos.durSecs 3661 = ⌊(3661 : ℚ)⌋ :=
  (C4_duration_formatting.1 3661 (by norm_num)).1

/-- Counterexample for C4 as stated: the also-cited maintenance variant
(src/scripts/maintenance/durations.py `format_duration`, lines 48-55)
returns `"Unknown"` for a zero duration instead of `"00:00"`, and renders
the sub-hour duration 61 s as `"00:01:01"` with a leading `00:` hour
component. -/
theorem C4_duration_counterexample :
    MaintenanceDurations.format_duration 0 = "Unknown"
    ∧ MaintenanceDurations.format_duration 0 ≠ "00:00"
    ∧ MaintenanceDurations.format_duration 61 = "00:01:01" := by
  have h0 : MaintenanceDurations.format_duration 0 = "Unknown" := by
    rw [MaintenanceDurations.format_duration]
    norm_num
  refine ⟨h0, by rw [h0]; decide, ?_⟩
  have h61 : (0 : ℚ) ≤ 61 := by norm_num
  have e1 : ⌊((61:ℚ)) / 3600⌋ = 0 := by
    rw [Int.floor_eq_zero_iff]
    constructor
    · positivity
    · rw [div_lt_one (by norm_num : (0:ℚ) < 3600)]
      norm_num
  have e2 : ⌊((61:ℚ)) / 60⌋ = 1 := by
    rw [show ((61:ℚ)) = (((61:ℤ)):ℚ) by norm_num,
      show ((60:ℚ)) = (((60:ℕ)):ℚ) by norm_num, Rat.floor_intCast_div_natCast]
    decide
  have e3 : ⌊((61:ℚ))⌋ = 61 := by
    rw [show ((61:ℚ)) = (((61:ℤ)):ℚ) by norm_num, Int.floor_intCast]
  have hh : ScanVideos.durHours 61 = 0 := by
    rw [ScanVideos.durHours_eq 61 h61, e1]
  have hm : ScanVideos.durMinutes 61 = 1 := by
    rw [ScanVideos.durMinutes_eq 61 h61, e1, e2]
    norm_num
  have hsec : ScanVideos.durSecs 61 = 1 := by
    rw [ScanVideos.durSecs_eq 61 h61, e2, e3]
    norm_num
  rw [MaintenanceDurations.format_duration]
  rw [if_neg (by norm_num : ¬ (61 : ℚ) = 0)]
  rw [hh, hm, hsec]
  decide

namespace FileUtils

/-!  Embeddings from `src/backend/app/utils/file_utils.py`.  A file opened in
binary mode is a list of byte values; `f.seek(p)` followed by `f.read(k)`
returns the next `min k (size - p)` bytes (empty past end of file). -/

/-- One `f.read(k)` call at file position `pos`. -/
def readAt (file : List ℕ) (pos k : ℕ) : List ℕ := (file.drop pos).take k

/-- `chunk_size = 1024 * 1024` (file_utils.py line 52). -/
def chunkSize : ℕ := 1048576

/-- The `while remaining > 0` loop of `partial_file_reader`
(file_utils.py lines 60-66): read `min(chunk_size, remaining)` bytes at the
current position, stop on an empty read, otherwise yield the chunk, advance
the position and decrease `remaining` by the chunk's length. -/
def pfrLoop (file : List ℕ) (pos remaining : ℕ) : List (List ℕ) :=
  if h : remaining = 0 then []
  else
    if hc : readAt file pos (min chunkSize remaining) = [] then []
    else
      readAt file pos (min chunkSize remaining)
        :: pfrLoop file (pos + (readAt file pos (min chunkSize remaining)).length)
            (remaining - (readAt file pos (min chunkSize remaining)).length)
termination_by remaining
decreasing_by
  have hpos : 0 < (readAt file pos (min chunkSize remaining)).length :=
    List.length_pos.mpr hc
  omega

/-- `partial_file_reader(file_path, start_byte, length)`
(file_utils.py lines 39-70): seek to `start_byte`, then run the chunk loop
with `remaining = length`. -/
def partial_file_reader (file : List ℕ) (start_byte length : ℕ) : List (List ℕ) :=
  pfrLoop file start_byte length

theorem pfrLoop_flatten (file : List ℕ) :
    ∀ remaining pos, (pfrLoop file pos remaining).flatten = (file.drop pos).take remaining := by
  intro remaining
  induction remaining using Nat.strong_induction_on with
  | _ remaining ih =>
    intro pos
    rw [pfrLoop.eq_def]
    by_cases h0 : remaining = 0
    · simp [h0]
    · rw [dif_neg h0]
      by_cases hc : readAt file pos (min chunkSize remaining) = []
      · rw [dif_pos hc]
        have hm0 : 0 < min chunkSize remaining := by
          have : 0 < chunkSize := by norm_num [chunkSize]
          omega
        have hLnil : file.drop pos = [] := by
          rcases hd : file.drop pos with _ | ⟨a, t⟩
          · rfl
          · exfalso
            rw [readAt, hd] at hc
            rcases hm : min chunkSize remaining with _ | m'
            · omega
            · rw [hm] at hc
              simp at hc
        simp [hLnil]
      · rw [dif_neg hc]
        set L := file.drop pos with hL
        set c := readAt file pos (min chunkSize remaining) with hcdef
        have hclen_le_m : c.length ≤ min chunkSize remaining := by
          rw [hcdef, readAt, ← hL]
          simpa using List.length_take_le (min chunkSize remaining) L
        have hclen_le : c.length ≤ remaining := le_trans hclen_le_m (by omega)
        have hcpos : 0 < c.length := List.length_pos.mpr hc
        have hrec := ih (remaining - c.length) (by omega) (pos + c.length)
        rw [List.flatten_cons, hrec]
        have hdrop : file.drop (pos + c.length) = L.drop c.length := by
          rw [hL, ← List.drop_drop]
        rw [hdrop]
        have htakec : L.take c.length = c := by
          calc L.take c.length
              = L.take (min c.length (min chunkSize remaining)) := by
                rw [min_eq_left hclen_le_m]
            _ = (L.take (min chunkSize remaining)).take c.length := (List.take_take ..).symm
            _ = c.take c.length := by rw [hcdef, readAt, ← hL]
            _ = c := List.take_length ..
        calc c ++ (L.drop c.length).take (remaining - c.length)
            = L.take c.length ++ (L.drop c.length).take (remaining - c.length) := by rw [htakec]
          _ = L.take (c.length + (remaining - c.length)) := (List.take_add ..).symm
          _ = L.take remaining := by rw [Nat.add_sub_cancel' hclen_le]

end FileUtils

/-- Claim C10 — partial_file_reader slice correctness
(file_utils.py lines 39-70): for every file, start position and requested
length, the concatenation of the yielded chunks is exactly the file's bytes
from `start_byte` up to `min (start_byte + length) file.length`
(`(file.drop start_byte).take length`), and in particular the total number
of bytes yielded never exceeds `length`.  This holds for any `start_byte`,
in particular for every position within the file. -/
theorem C10_partial_file_reader_slice :
    ∀ (file : List ℕ) (start_byte length : ℕ),
      (FileUtils.partial_file_reader file start_byte length).flatten
          = (file.drop start_byte).take length
      ∧ ((FileUtils.partial_file_reader file start_byte length).flatten).length ≤ length := by
  intro file start_byte length
  have h := FileUtils.pfrLoop_flatten file length start_byte
  refine ⟨h, ?_⟩
  rw [FileUtils.partial_file_reader, h]
  simpa using List.length_take_le length (file.drop start_byte)

/-! ### The scan loop and the per-directory pipeline -/

/-- A `media_assets` row as far as the scan-loop claims are concerned: only
the unique `file_path` column matters to them (models.py line 87). -/
structure Asset where
  file_path : String
deriving DecidableEq

namespace MediaRoutes

/-!  Embedding of the `/scan` route `scan_directory`
(src/backend/app/routes/media.py lines 173-251).  The glob enumeration is a
list of path strings; the whole per-file `try` body after the duplicate
check (extract_metadata, asset construction, `session.add`/`flush`,
ProcessingResult) is the environment oracle `processFile`: `some a` when the
body completes and stages the asset `a`, `none` when metadata is missing or
any per-file exception is caught (lines 196-199 and 235-237).  For an
unchanged directory the oracle is a fixed function of the path. -/

/-- One iteration of the scan loop (media.py lines 190-237): skip the file
when a row with its path is already visible in the session (line 192),
otherwise run the body and append the staged asset on success. -/
def scanStep (processFile : String → Option Asset) (db : List Asset) (p : String) :
    List Asset :=
  if db.any (fun a => a.file_path == p) then db
  else
    match processFile p with
    | none => db
    | some a => db ++ [a]

/-- The full scan pass (media.py lines 187-241): fold the per-file step over
the enumerated paths, starting from the rows already in the table. -/
def scan_directory (processFile : String → Option Asset) (db : List Asset)
    (files : List String) : List Asset :=
  files.foldl (scanStep processFile) db

theorem scan_append (processFile : String → Option Asset) :
    ∀ (files : List String) (db : List Asset),
      ∃ t, scan_directory processFile db files = db ++ t := by
  intro files
  induction files with
  | nil => exact fun db => ⟨[], by simp [scan_directory]⟩
  | cons p fs ih =>
    intro db
    show ∃ t, scan_directory processFile (scanStep processFile db p) fs = db ++ t
    rcases ih (scanStep processFile db p) with ⟨t, ht⟩
    by_cases hmem : db.any (fun a => a.file_path == p) = true
    · rw [scanStep, if_pos hmem] at ht
      refine ⟨t, ?_⟩
      rw [scanStep, if_pos hmem]
      exact ht
    · cases hpfp : processFile p with
      | none =>
        rw [scanStep, if_neg hmem, hpfp] at ht
        refine ⟨t, ?_⟩
        rw [scanStep, if_neg hmem, hpfp]
        exact ht
      | some a =>
        rw [scanStep, if_neg hmem, hpfp] at ht
        refine ⟨[a] ++ t, ?_⟩
        rw [scanStep, if_neg hmem, hpfp, ht, List.append_assoc]

theorem mem_scan_of_mem (processFile : String → Option Asset) (files : List String)
    (db : List Asset) (a : Asset) (ha : a ∈ db) :
    a ∈ scan_directory processFile db files := by
  rcases scan_append processFile files db with ⟨t, ht⟩
  rw [ht]
  exact List.mem_append_left t ha

theorem scan_covers (processFile : String → Option Asset)
    (hpf : ∀ p a, processFile p = some a → a.file_path = p) :
    ∀ (files : List String) (db : List Asset) (p : String), p ∈ files →
      processFile p = none
      ∨ ∃ a ∈ scan_directory processFile db files, a.file_path = p := by
  intro files
  induction files with
  | nil => intro db p hp; cases hp
  | cons q fs ih =>
    intro db p hp
    rcases List.mem_cons.mp hp with hq | hfs
    · subst hq
      by_cases hmem : db.any (fun a => a.file_path == p) = true
      · rcases List.any_eq_true.mp hmem with ⟨a, hadb, haeq⟩
        refine Or.inr ⟨a, ?_, by simpa using haeq⟩
        exact mem_scan_of_mem processFile fs (scanStep processFile db p) a
          (by rw [scanStep, if_pos hmem]; exact hadb)
      · cases hpfp : processFile p with
        | none => exact Or.inl rfl
        | some a =>
          refine Or.inr ⟨a, ?_, hpf p a hpfp⟩
          refine mem_scan_of_mem processFile fs (scanStep processFile db p) a ?_
          rw [scanStep, if_neg hmem, hpfp]
          exact List.mem_append_right db (List.mem_singleton.mpr rfl)
    · exact ih (scanStep processFile db q) p hfs

theorem scan_fixpoint (processFile : String → Option Asset) :
    ∀ (files : List String) (S : List Asset),
      (∀ p ∈ files, processFile p = none ∨ ∃ a ∈ S, a.file_path = p) →
      scan_directory processFile S files = S := by
  intro files
  induction files with
  | nil => intro S _; rfl
  | cons q fs ih =>
    intro S hS
    have hstep : scanStep processFile S q = S := by
      rcases hS q (List.mem_cons_self q fs) with hnone | ⟨a, haS, haeq⟩
      · rw [scanStep]
        by_cases hmem : S.any (fun a => a.file_path == q) = true
        · rw [if_pos hmem]
        · rw [if_neg hmem, hnone]
      · have hmem : S.any (fun a => a.file_path == q) = true :=
          List.any_eq_true.mpr ⟨a, haS, by simpa using haeq⟩
        rw [scanStep, if_pos hmem]
    show scan_directory processFile (scanStep processFile S q) fs = S
    rw [hstep]
    exact ih S (fun p hp => hS p (List.mem_cons_of_mem q hp))

theorem scan_nodup (processFile : String → Option Asset)
    (hpf : ∀ p a, processFile p = some a → a.file_path = p) :
    ∀ (files : List String) (db : List Asset),
      (db.map Asset.file_path).Nodup →
      ((scan_directory processFile db files).map Asset.file_path).Nodup := by
  intro files
  induction files with
  | nil => intro db h; exact h
  | cons q fs ih =>
    intro db h
    refine ih (scanStep processFile db q) ?_
    rw [scanStep]
    by_cases hmem : db.any (fun a => a.file_path == q) = true
    · rw [if_pos hmem]; exact h
    · rw [if_neg hmem]
      cases hpfq : processFile q with
      | none => exact h
      | some a =>
        have hap : a.file_path = q := hpf q a hpfq
        have hqnot : q ∉ db.map Asset.file_path := by
          intro hin
          rcases List.mem_map.mp hin with ⟨b, hbdb, hbeq⟩
          exact hmem (List.any_eq_true.mpr ⟨b, hbdb, by simp [hbeq]⟩)
        simp only [List.map_append, List.map_cons, List.map_nil]
        rw [List.nodup_append]
        refine ⟨h, List.nodup_singleton _, ?_⟩
        intro x hx hx1
        rcases List.mem_singleton.mp hx1 with rfl
        rw [hap] at hx
        exact hqnot hx

end MediaRoutes

/-- Claim C1 — idempotent re-scan (media.py `scan_directory`, lines 173-251):
over an unchanged directory (a fixed file enumeration and a fixed per-file
outcome whose created asset carries the file's own path, as
`file_path=str(file_path)` does at line 204), (i) scanning twice yields the
very same table — in particular the same asset count — as scanning once;
(ii) starting from a table with pairwise-distinct `file_path`s, the table
visible after any intermediate prefix of the scan still has pairwise-distinct
`file_path`s, so at no point do two rows share a `file_path`; and (iii) the
per-file step skips — leaves the table untouched on — every file whose path
is already present in the asset table. -/
theorem C1_idempotent_rescan
    (processFile : String → Option Asset) (db : List Asset) (files : List String)
    (hpf : ∀ p a, processFile p = some a → a.file_path = p) :
    MediaRoutes.scan_directory processFile
        (MediaRoutes.scan_directory processFile db files) files
      = MediaRoutes.scan_directory processFile db files
    ∧ ((db.map Asset.file_path).Nodup →
        ∀ fs₁ fs₂ : List String, files = fs₁ ++ fs₂ →
          ((MediaRoutes.scan_directory processFile db fs₁).map Asset.file_path).Nodup)
    ∧ (∀ p : String, db.any (fun a => a.file_path == p) = true →
        MediaRoutes.scanStep processFile db p = db) := by
  refine ⟨?_, ?_, ?_⟩
  · apply MediaRoutes.scan_fixpoint
    intro p hp
    exact MediaRoutes.scan_covers processFile hpf files db p hp
  · intro hnodup fs₁ fs₂ _
    exact MediaRoutes.scan_nodup processFile hpf fs₁ db hnodup
  · intro p hmem
    rw [MediaRoutes.scanStep, if_pos hmem]

/-- Witness for C1 at a concrete oracle, table and file list: the file
`"/m/a.mp4"` is already indexed and `"/m/b.mp4"` is new. -/
theorem C1_idempotent_rescan_witness :
    (MediaRoutes.scan_directory (fun p => some ⟨p⟩)
        (MediaRoutes.scan_directory (fun p => some ⟨p⟩)
          [⟨"/m/a.mp4"⟩] ["/m/a.mp4", "/m/b.mp4"]) ["/m/a.mp4", "/m/b.mp4"]
      = MediaRoutes.scan_directory (fun p => some ⟨p⟩)
          [⟨"/m/a.mp4"⟩] ["/m/a.mp4", "/m/b.mp4"])
    ∧ (([Asset.mk "/m/a.mp4"].map Asset.file_path).Nodup →
        ∀ fs₁ fs₂ : List String, ["/m/a.mp4", "/m/b.mp4"] = fs₁ ++ fs₂ →
          ((MediaRoutes.scan_directory (fun p => some ⟨p⟩)
            [⟨"/m/a.mp4"⟩] fs₁).map Asset.file_path).Nodup)
    ∧ (∀ p : String, [Asset.mk "/m/a.mp4"].any (fun a => a.file_path == p) = true →
        MediaRoutes.scanStep (fun p => some ⟨p⟩) [⟨"/m/a.mp4"⟩] p = [⟨"/m/a.mp4"⟩]) :=
  C1_idempotent_rescan (fun p => some ⟨p⟩) [⟨"/m/a.mp4"⟩] ["/m/a.mp4", "/m/b.mp4"]
    (fun p a h => by injection h with h'; rw [← h'])

namespace ProcessDirectory

/-!  Embedding of `process_directory`
(src/backend/app/utils/process_directory.py lines 12-66) over an explicit
ORM session.  The per-file `try` body outcome — `extract_metadata`, optional
thumbnail, `MediaAsset(...)` construction and the commit — is the
environment oracle: `.skip` when `extract_metadata` returns `None`
(lines 29-30), `.error` when any exception is raised anywhere in the body
(caught at lines 57-60, which roll back and continue), `.ok a` when the
body completes and commits the asset `a`.  An exception raised after
`session.add` is still `.error`: the rollback at line 59 clears the staged
rows either way. -/

/-- Per-file outcome of the `try` body (process_directory.py lines 24-56). -/
inductive FileOutcome where
  | error : FileOutcome
  | skip : FileOutcome
  | ok : Asset → FileOutcome
deriving DecidableEq

/-- An ORM session: committed table rows plus rows staged by `session.add`
that are not yet committed. -/
structure Session where
  committed : List Asset
  staged : List Asset
deriving DecidableEq

/-- `db.session.add(asset)` (line 52). -/
def addRow (s : Session) (a : Asset) : Session :=
  { s with staged := s.staged ++ [a] }

/-- `db.session.commit()` (line 53): staged rows become table rows. -/
def commit (s : Session) : Session :=
  { committed := s.committed ++ s.staged, staged := [] }

/-- `db.session.rollback()` (line 59): staged rows are discarded. -/
def rollback (s : Session) : Session :=
  { s with staged := [] }

/-- One iteration of the file loop (lines 22-60): unsupported paths are not
processed at all (line 23); a raised exception rolls back only this file's
transaction and the loop continues (lines 57-60); a missing metadata result
skips the file (lines 29-30); success stages and commits one row and
appends its representation to the returned list (lines 43-55). -/
def processOne (outcome : String → FileOutcome) (s : Session) (p : String) :
    Session × Option Asset :=
  match outcome p with
  | .error => (rollback s, none)
  | .skip => (s, none)
  | .ok a => (commit (addRow s a), some a)

/-- One fold step of the file loop: unsupported paths are untouched, a
processed file threads the session and appends its representation (if any)
to the returned list. -/
def pdStep (outcome : String → FileOutcome) (supported : String → Bool)
    (acc : Session × List Asset) (p : String) : Session × List Asset :=
  if supported p then
    ((processOne outcome acc.1 p).1, acc.2 ++ ((processOne outcome acc.1 p).2).toList)
  else acc

/-- `process_directory(directory_path, directory_id)` (lines 12-66): if the
resolved directory does not exist, log and return no assets (lines 18-20);
otherwise fold the per-file loop over the enumerated files, collecting the
successfully processed assets.  The function is total: no exception
propagates past the scan boundary (the outer handler at lines 64-66 would
catch it). -/
def process_directory (outcome : String → FileOutcome) (supported : String → Bool)
    (dirExists : Bool) (s : Session) (files : List String) : Session × List Asset :=
  if !dirExists then (s, [])
  else files.foldl (pdStep outcome supported) (s, [])

/-- The assets of the files whose `try` body succeeds, in scan order. -/
def successes (outcome : String → FileOutcome) (supported : String → Bool)
    (files : List String) : List Asset :=
  files.filterMap (fun p =>
    if supported p then
      match outcome p with
      | .ok a => some a
      | _ => none
    else none)

theorem successes_cons (outcome : String → FileOutcome) (supported : String → Bool)
    (p : String) (fs : List String) :
    successes outcome supported (p :: fs)
      = (if supported p then
          match outcome p with
          | .ok a => [a]
          | _ => []
        else []) ++ successes outcome supported fs := by
  rw [successes, List.filterMap_cons]
  by_cases hsup : supported p = true
  · cases hoc : outcome p with
    | error => simp [hsup, hoc, successes]
    | skip => simp [hsup, hoc, successes]
    | ok a => simp [hsup, hoc, successes]
  · have hsup' : supported p = false := by
      cases h : supported p
      · rfl
      · exact absurd h hsup
    simp [hsup', successes]

theorem pdLoop_spec (outcome : String → FileOutcome) (supported : String → Bool) :
    ∀ (files : List String) (acc : Session × List Asset), acc.1.staged = [] →
      (files.foldl (pdStep outcome supported) acc).1.staged = []
      ∧ (files.foldl (pdStep outcome supported) acc).1.committed
          = acc.1.committed ++ successes outcome supported files
      ∧ (files.foldl (pdStep outcome supported) acc).2
          = acc.2 ++ successes outcome supported files := by
  intro files
  induction files with
  | nil => intro acc h; exact ⟨h, by simp [successes], by simp [successes]⟩
  | cons p fs ih =>
    intro acc hstaged
    rw [List.foldl_cons]
    by_cases hsup : supported p = true
    · cases hoc : outcome p with
      | error =>
        have hstep : pdStep outcome supported acc p = ((rollback acc.1), acc.2) := by
          simp [pdStep, hsup, processOne, hoc]
        rw [hstep]
        have h := ih ((rollback acc.1), acc.2) rfl
        refine ⟨h.1, ?_, ?_⟩
        · rw [h.2.1, successes_cons]
          simp [hsup, hoc, rollback]
        · rw [h.2.2, successes_cons]
          simp [hsup, hoc]
      | skip =>
        have hstep : pdStep outcome supported acc p = (acc.1, acc.2) := by
          simp [pdStep, hsup, processOne, hoc]
        rw [hstep]
        have h := ih (acc.1, acc.2) hstaged
        refine ⟨h.1, ?_, ?_⟩
        · rw [h.2.1, successes_cons]
          simp [hsup, hoc]
        · rw [h.2.2, successes_cons]
          simp [hsup, hoc]
      | ok a =>
        have hstep : pdStep outcome supported acc p
            = ((commit (addRow acc.1 a)), acc.2 ++ [a]) := by
          simp [pdStep, hsup, processOne, hoc]
        rw [hstep]
        have h := ih ((commit (addRow acc.1 a)), acc.2 ++ [a]) rfl
        refine ⟨h.1, ?_, ?_⟩
        · rw [h.2.1, successes_cons]
          have hcm : (commit (addRow acc.1 a)).committed = acc.1.committed ++ [a] := by
            simp [commit, addRow, hstaged]
          rw [hcm, List.append_assoc]
          simp [hsup, hoc]
        · rw [h.2.2, successes_cons]
          simp [hsup, hoc, List.append_assoc]
    · have hsup' : supported p = false := by
        cases h : supported p
        · rfl
        · exact absurd h hsup
      have hstep : pdStep outcome supported acc p = acc := by
        simp [pdStep, hsup']
      rw [hstep]
      have h := ih acc hstaged
      refine ⟨h.1, ?_, ?_⟩
      · rw [h.2.1, successes_cons]
        simp [hsup']
      · rw [h.2.2, successes_cons]
        simp [hsup']

end ProcessDirectory

/-- Claim C2 — partial-failure isolation (process_directory.py, lines
12-66): starting from a session with nothing staged, the scan is a total
function (the exception raised by any file's body is caught inside the
loop, so nothing propagates past the scan boundary), it leaves nothing
staged, the table afterwards holds exactly the old rows followed by the
assets of the successfully processed files — so a file whose body raises
contributes no row, full or partial, while every other file's asset is
still committed and the loop continued past the failure — and the returned
list is exactly those successfully processed assets, in order. -/
theorem C2_partial_failure_isolation
    (outcome : String → ProcessDirectory.FileOutcome) (supported : String → Bool)
    (s : ProcessDirectory.Session) (files : List String)
    (hclean : s.staged = []) :
    (ProcessDirectory.process_directory outcome supported true s files).1.staged = []
    ∧ (ProcessDirectory.process_directory outcome supported true s files).1.committed
        = s.committed ++ ProcessDirectory.successes outcome supported files
    ∧ (ProcessDirectory.process_directory outcome supported true s files).2
        = ProcessDirectory.successes outcome supported files := by
  have h := ProcessDirectory.pdLoop_spec outcome supported files (s, []) hclean
  rw [ProcessDirectory.process_directory]
  simp only [Bool.not_true, Bool.false_eq_true, if_false]
  exact ⟨h.1, h.2.1, by rw [h.2.2]; simp⟩

/-- Witness for C2: three supported files of which the middle one raises;
the scan returns the two successful assets, commits exactly those, and
stages nothing. -/
theorem C2_partial_failure_isolation_witness :
    (ProcessDirectory.process_directory
        (fun p => if p = "/m/bad.mp4" then .error else .ok ⟨p⟩) (fun _ => true)
        true ⟨[], []⟩ ["/m/a.mp4", "/m/bad.mp4", "/m/c.mp4"]).1.staged = []
    ∧ (ProcessDirectory.process_directory
        (fun p => if p = "/m/bad.mp4" then .error else .ok ⟨p⟩) (fun _ => true)
        true ⟨[], []⟩ ["/m/a.mp4", "/m/bad.mp4", "/m/c.mp4"]).1.committed
        = [] ++ ProcessDirectory.successes
            (fun p => if p = "/m/bad.mp4" then .error else .ok ⟨p⟩) (fun _ => true)
            ["/m/a.mp4", "/m/bad.mp4", "/m/c.mp4"]
    ∧ (ProcessDirectory.process_directory
        (fun p => if p = "/m/bad.mp4" then .error else .ok ⟨p⟩) (fun _ => true)
        true ⟨[], []⟩ ["/m/a.mp4", "/m/bad.mp4", "/m/c.mp4"]).2
        = ProcessDirectory.successes
            (fun p => if p = "/m/bad.mp4" then .error else .ok ⟨p⟩) (fun _ => true)
            ["/m/a.mp4", "/m/bad.mp4", "/m/c.mp4"] :=
  C2_partial_failure_isolation
    (fun p => if p = "/m/bad.mp4" then .error else .ok ⟨p⟩) (fun _ => true)
    ⟨[], []⟩ ["/m/a.mp4", "/m/bad.mp4", "/m/c.mp4"] rfl

/-! ### Metadata extraction (C5, C6) -/

/-- `os.path.basename`: the final path component. -/
def pyBasename (p : String) : String := String.mk ((p.toList.splitOn '/').getLastD [])

/-- Python `s.startswith(pre)`. -/
def pyStartsWith (pre s : String) : Bool := pre.toList.isPrefixOf s.toList

/-- Python `s.lower()` (sufficient for the ASCII extensions involved). -/
def pyLower (s : String) : String := String.mk (s.toList.map Char.toLower)

/-- `pathlib.Path(p).suffix`: the final dotted extension of the last path
component, including the dot; empty for names with no dot, for dotfiles
such as `.bashrc`, and for names ending in a dot. -/
def pySuffix (p : String) : String :=
  match (pyBasename p).toList.splitOn '.' with
  | [] => ""
  | [_] => ""
  | parts =>
    if parts.getLastD [] = [] then ""
    else if decide (parts.length = 2) && decide (parts.headD ['x'] = []) then ""
    else String.mk ('.' :: parts.getLastD [])

namespace ExtractMetadata

/-!  Embedding of `src/backend/app/utils/extract_metadata.py`
(`extract_metadata`, lines 99-135, and `extract_video_metadata`,
lines 137-174).  A Python dict is an association list with string keys in
insertion order; `metadata['k']` is a lookup that raises `KeyError` when
the key is absent.  The filesystem, libmagic, ffprobe and the thumbnail
generator are an explicit environment; a `none` from one of them is that
call raising. -/

/-- A value stored in the metadata dict. -/
inductive Val where
  | nat : ℕ → Val
  | int : ℤ → Val
  | rat : ℚ → Val
  | str : String → Val
  | dict : List (String × Val) → Val

/-- Python `d[k]` / `d.get(k)`: first entry with the given key. -/
def dget : List (String × Val) → String → Option Val
  | [], _ => none
  | e :: rest, k => if e.1 == k then some e.2 else dget rest k

/-- `os.stat` outcome: size in bytes plus the two iso-formatted timestamps
used at lines 111 and 113. -/
structure Stat where
  size : ℕ
  mtime : String
  ctime : String
deriving DecidableEq

/-- One ffprobe stream record, with the fields read at lines 143-168. -/
structure ProbeStream where
  codec_type : String
  codec_name : String
  width : ℕ
  height : ℕ
  r_frame_rate : String
  channels : ℕ
  sample_rate : ℕ
deriving DecidableEq

/-- The ffprobe result: the stream list plus the `format` section fields
read at lines 156-157. -/
structure ProbeData where
  streams : List ProbeStream
  duration : ℚ
  bit_rate : ℤ
deriving DecidableEq

/-- The external world as `extract_metadata` sees it: `none` from `stat` or
`magic` is the corresponding call raising (caught at lines 133-135);
`none` from `probe` is `ffmpeg.probe` raising (caught at lines 172-174);
`thumbnail` is `generate_thumbnail`'s returned path, if any. -/
structure Env where
  stat : String → Option Stat
  magic : String → Option String
  probe : String → Option ProbeData
  thumbnail : String → Option String

/-- The external-tool invocations the claims C5/C6 count. -/
inductive ToolCall where
  | thumbnail : ToolCall
  | probe : ToolCall
deriving DecidableEq

/-- The fps computation of `extract_video_metadata` (lines 146-151):
`num, den = map(float, r_frame_rate.split('/'))`, `num / den` guarded by
`den != 0`, `ValueError`/`ZeroDivisionError` degrade to 0. -/
def videoFps (s : String) : ℚ :=
  match s.toList.splitOn '/' with
  | [a, b] =>
    match pyFloatParse a, pyFloatParse b with
    | some n, some d => if d = 0 then 0 else n / d
    | _, _ => 0
  | _ => 0

/-- `extract_video_metadata` (lines 137-174): probe the file; on success
collect the video-stream fields (lines 153-160) and, if an audio stream is
present, the nested audio dict (lines 162-168); any probe failure yields
the empty dict. -/
def extract_video_metadata (env : Env) (p : String) : List (String × Val) :=
  match env.probe p with
  | none => []
  | some pd =>
    let vmd :=
      match pd.streams.find? (fun s => s.codec_type == "video") with
      | none => []
      | some vs =>
        [("width", Val.nat vs.width), ("height", Val.nat vs.height),
          ("duration", Val.rat pd.duration), ("bitrate", Val.int pd.bit_rate),
          ("codec", Val.str vs.codec_name), ("fps", Val.rat (round3 (videoFps vs.r_frame_rate)))]
    match pd.streams.find? (fun s => s.codec_type == "audio") with
    | none => vmd
    | some as_ =>
      vmd ++ [("audio", Val.dict
        [("codec", Val.str as_.codec_name), ("channels", Val.nat as_.channels),
          ("sample_rate", Val.nat as_.sample_rate)])]

/-- `extract_metadata` (lines 99-135), together with the list of external
probe/thumbnail tool invocations it performs.  `stat`/`magic` failure is
caught by the outer handler and returns `None` (line 135); only a file
whose libmagic mime type starts with `video/` triggers the thumbnail
generator (line 118) and the ffprobe call (line 127); the returned dict
never contains an `error` key — no code path inserts one. -/
def extract_metadata (env : Env) (p : String) :
    Option (List (String × Val)) × List ToolCall :=
  match env.stat p with
  | none => (none, [])
  | some st =>
    match env.magic p with
    | none => (none, [])
    | some mime =>
      let base :=
        [("file_size", Val.nat st.size), ("mime_type", Val.str mime),
          ("last_modified", Val.str st.mtime),
          ("file_extension", Val.str (pyLower (pySuffix p))),
          ("creation_date", Val.str st.ctime)]
      if pyStartsWith "video/" mime then
        let thumbEntries :=
          match env.thumbnail p with
          | some tp =>
            [("thumbnail_url", Val.str ("/thumbnails/" ++ pyBasename tp)),
              ("thumbnail_timestamp", Val.nat 6)]
          | none => []
        (some (base ++ thumbEntries ++ extract_video_metadata env p),
          [ToolCall.thumbnail, ToolCall.probe])
      else (some base, [])

end ExtractMetadata

/-- Claim C5, amended — probe-failure result shape (`extract_metadata`,
extract_metadata.py lines 99-135): when the basic `stat`/libmagic calls
succeed, the file looks like a video, and the ffmpeg probe fails,
`extract_metadata` does not raise and returns the basic file-metadata
record — with the file size and mime type, no video fields, and no
`error` key (no code path ever inserts one); when even `stat` or libmagic
fails, it returns `None` rather than any record.  The original claim's
`plus an 'error' field` is falsified by `C5_probe_failure_counterexample`. -/
theorem C5_probe_failure_result :
    (∀ (env : ExtractMetadata.Env) (p : String) (st : ExtractMetadata.Stat) (mime : String),
      env.stat p = some st → env.magic p = some mime →
      pyStartsWith "video/" mime = true → env.probe p = none →
      (ExtractMetadata.extract_metadata env p).1.map
          (fun md => ExtractMetadata.dget md "error") = some none
      ∧ (ExtractMetadata.extract_metadata env p).1.map
          (fun md => ExtractMetadata.dget md "width") = some none
      ∧ (ExtractMetadata.extract_metadata env p).1.map
          (fun md => ExtractMetadata.dget md "duration") = some none
      ∧ (ExtractMetadata.extract_metadata env p).1.map
          (fun md => ExtractMetadata.dget md "file_size")
          = some (some (ExtractMetadata.Val.nat st.size))
      ∧ (ExtractMetadata.extract_metadata env p).1.map
          (fun md => ExtractMetadata.dget md "mime_type")
          = some (some (ExtractMetadata.Val.str mime)))
    ∧ (∀ (env : ExtractMetadata.Env) (p : String), env.stat p = none →
        ExtractMetadata.extract_metadata env p = (none, [])) := by
  constructor
  · intro env p st mime hstat hmagic hmime hprobe
    have hvmd : ExtractMetadata.extract_video_metadata env p = [] := by
      unfold ExtractMetadata.extract_video_metadata
      rw [hprobe]
    cases ht : env.thumbnail p with
    | none =>
      have hres : (ExtractMetadata.extract_metadata env p).1
          = some [("file_size", ExtractMetadata.Val.nat st.size),
              ("mime_type", ExtractMetadata.Val.str mime),
              ("last_modified", ExtractMetadata.Val.str st.mtime),
              ("file_extension", ExtractMetadata.Val.str (pyLower (pySuffix p))),
              ("creation_date", ExtractMetadata.Val.str st.ctime)] := by
        unfold ExtractMetadata.extract_metadata
        rw [hstat, hmagic]
        simp only [hmime, if_true, ht, hvmd]
        rfl
      rw [hres]
      exact ⟨rfl, rfl, rfl, rfl, rfl⟩
    | some tp =>
      have hres : (ExtractMetadata.extract_metadata env p).1
          = some ([("file_size", ExtractMetadata.Val.nat st.size),
              ("mime_type", ExtractMetadata.Val.str mime),
              ("last_modified", ExtractMetadata.Val.str st.mtime),
              ("file_extension", ExtractMetadata.Val.str (pyLower (pySuffix p))),
              ("creation_date", ExtractMetadata.Val.str st.ctime)]
            ++ [("thumbnail_url", ExtractMetadata.Val.str ("/thumbnails/" ++ pyBasename tp)),
              ("thumbnail_timestamp", ExtractMetadata.Val.nat 6)]
            ++ []) := by
        unfold ExtractMetadata.extract_metadata
        rw [hstat, hmagic]
        simp only [hmime, if_true, ht, hvmd]
      rw [hres]
      exact ⟨rfl, rfl, rfl, rfl, rfl⟩
  · intro env p hstat
    unfold ExtractMetadata.extract_metadata
    rw [hstat]

/-- A concrete environment in which probing fails on every file while the
basic calls succeed: a corrupt video. -/
def envProbeFail : ExtractMetadata.Env where
  stat := fun _ => some ⟨4096, "2025-01-01T00:00:00", "2025-01-01T00:00:00"⟩
  magic := fun _ => some "video/mp4"
  probe := fun _ => none
  thumbnail := fun _ => none

/-- Counterexample for C5 as stated: on a corrupt video (probing fails, the
basic calls succeed), `extract_metadata` returns a record whose `error` key
is absent — not a record `plus an 'error' field`. -/
theorem C5_probe_failure_counterexample :
    (ExtractMetadata.extract_metadata envProbeFail "/m/corrupt.mp4").1.map
        (fun md => ExtractMetadata.dget md "error") = some none
    ∧ envProbeFail.probe "/m/corrupt.mp4" = none := by
  exact ⟨rfl, rfl⟩

/-- Witness for C5: the amended theorem applied in the concrete
probe-failing environment. -/
theorem C5_probe_failure_result_witness :
    (ExtractMetadata.extract_metadata envProbeFail "/m/corrupt.mp4").1.map
        (fun md => ExtractMetadata.dget md "error") = some none
    ∧ (ExtractMetadata.extract_metadata envProbeFail "/m/corrupt.mp4").1.map
        (fun md => ExtractMetadata.dget md "width") = some none
    ∧ (ExtractMetadata.extract_metadata envProbeFail "/m/corrupt.mp4").1.map
        (fun md => ExtractMetadata.dget md "duration") = some none
    ∧ (ExtractMetadata.extract_metadata envProbeFail "/m/corrupt.mp4").1.map
        (fun md => ExtractMetadata.dget md "file_size")
        = some (some (ExtractMetadata.Val.nat 4096))
    ∧ (ExtractMetadata.extract_metadata envProbeFail "/m/corrupt.mp4").1.map
        (fun md => ExtractMetadata.dget md "mime_type")
        = some (some (ExtractMetadata.Val.str "video/mp4")) :=
  C5_probe_failure_result.1 envProbeFail "/m/corrupt.mp4"
    ⟨4096, "2025-01-01T00:00:00", "2025-01-01T00:00:00"⟩ "video/mp4"
    rfl rfl (by decide) rfl

namespace MediaRoutes

/-- The per-file `try` body of media.py `scan_directory` after the
duplicate check, composed with the real `extract_metadata`
(media.py lines 195-233): a `None` metadata result skips the file
(lines 197-199); the `MediaAsset(...)` construction reads
`metadata['file_size']`, `metadata['file_size_mb']` and
`metadata['format']` (lines 205-207) — a missing key raises `KeyError`,
which the per-file handler at lines 235-237 catches, skipping the file.
`extract_metadata` never sets `file_size_mb` or `format`, so this body can
never stage a row; the lookups are nevertheless modelled in evaluation
order, faithful to the source. -/
def scanFileBody (env : ExtractMetadata.Env) (p : String) : Option Asset :=
  match (ExtractMetadata.extract_metadata env p).1 with
  | none => none
  | some md =>
    match ExtractMetadata.dget md "file_size" with
    | none => none
    | some _ =>
      match ExtractMetadata.dget md "file_size_mb" with
      | none => none
      | some _ =>
        match ExtractMetadata.dget md "format" with
        | none => none
        | some _ => some ⟨p⟩

theorem scanFileBody_path (env : ExtractMetadata.Env) (p : String) (a : Asset)
    (h : scanFileBody env p = some a) : a.file_path = p := by
  unfold scanFileBody at h
  split at h
  · cases h
  · split at h
    · cases h
    · split at h
      · cases h
      · split at h
        · cases h
        · injection h with h2
          rw [← h2]

theorem scan_no_row_for (env : ExtractMetadata.Env) (p : String)
    (hbody : scanFileBody env p = none) :
    ∀ (files : List String) (db : List Asset),
      (∀ a ∈ db, a.file_path ≠ p) →
      ∀ a ∈ scan_directory (scanFileBody env) db files, a.file_path ≠ p := by
  intro files
  induction files with
  | nil => intro db hdb; exact hdb
  | cons q fs ih =>
    intro db hdb
    show ∀ a ∈ scan_directory (scanFileBody env) (scanStep (scanFileBody env) db q) fs,
      a.file_path ≠ p
    apply ih
    intro a ha
    rw [scanStep] at ha
    by_cases hmem : db.any (fun x => x.file_path == q) = true
    · rw [if_pos hmem] at ha; exact hdb a ha
    · rw [if_neg hmem] at ha
      cases hq : scanFileBody env q with
      | none => rw [hq] at ha; exact hdb a ha
      | some b =>
        rw [hq] at ha
        rcases List.mem_append.mp ha with h1 | h2
        · exact hdb a h1
        · rcases List.mem_singleton.mp h2 with rfl
          have hbq : a.file_path = q := scanFileBody_path env q a hq
          rw [hbq]
          intro hqp
          subst hqp
          rw [hbody] at hq
          cases hq

end MediaRoutes

/-- Claim C6 — zero-byte rejection (extract_metadata.py lines 99-131 and
media.py `scan_directory`): on an empty file, libmagic reports an
empty-file mime type (`application/x-empty` or `inode/x-empty`), never a
`video/...` one — the hypothesis `pyStartsWith "video/" mime = false`
records that external fact — so `extract_metadata` invokes neither the
thumbnail tool nor the ffmpeg probe, the per-file scan body stages no row,
the scan step leaves any table unchanged at that file, and a full scan over
any file list never creates a row with the empty file's path. -/
theorem C6_zero_byte_rejection
    (env : ExtractMetadata.Env) (p : String) (st : ExtractMetadata.Stat) (mime : String)
    (hstat : env.stat p = some st) (hsize : st.size = 0)
    (hmagic : env.magic p = some mime)
    (hmime : pyStartsWith "video/" mime = false) :
    (ExtractMetadata.extract_metadata env p).2 = []
    ∧ MediaRoutes.scanFileBody env p = none
    ∧ (∀ db : List Asset, MediaRoutes.scanStep (MediaRoutes.scanFileBody env) db p = db)
    ∧ (∀ (files : List String) (db : List Asset), (∀ a ∈ db, a.file_path ≠ p) →
        ∀ a ∈ MediaRoutes.scan_directory (MediaRoutes.scanFileBody env) db files,
          a.file_path ≠ p) := by
  have hpair : ExtractMetadata.extract_metadata env p
      = (some [("file_size", ExtractMetadata.Val.nat st.size),
          ("mime_type", ExtractMetadata.Val.str mime),
          ("last_modified", ExtractMetadata.Val.str st.mtime),
          ("file_extension", ExtractMetadata.Val.str (pyLower (pySuffix p))),
          ("creation_date", ExtractMetadata.Val.str st.ctime)], []) := by
    unfold ExtractMetadata.extract_metadata
    rw [hstat, hmagic]
    simp only [hmime, Bool.false_eq_true, if_false]
  have hbody : MediaRoutes.scanFileBody env p = none := by
    unfold MediaRoutes.scanFileBody
    rw [congrArg Prod.fst hpair]
    rfl
  refine ⟨by rw [congrArg Prod.snd hpair], hbody, ?_, ?_⟩
  · intro db
    rw [MediaRoutes.scanStep]
    by_cases hmem : db.any (fun a => a.file_path == p) = true
    · rw [if_pos hmem]
    · rw [if_neg hmem, hbody]
  · exact MediaRoutes.scan_no_row_for env p hbody

/-- A concrete environment holding one zero-byte file with a video
extension: `stat` reports size 0 and libmagic reports the empty-file mime
type. -/
def envEmptyFile : ExtractMetadata.Env where
  stat := fun _ => some ⟨0, "2025-01-01T00:00:00", "2025-01-01T00:00:00"⟩
  magic := fun _ => some "application/x-empty"
  probe := fun _ => none
  thumbnail := fun _ => none

/-- Witness for C6: the theorem applied to the concrete zero-byte file
`/m/empty.mp4`. -/
theorem C6_zero_byte_rejection_witness :
    (ExtractMetadata.extract_metadata envEmptyFile "/m/empty.mp4").2 = []
    ∧ MediaRoutes.scanFileBody envEmptyFile "/m/empty.mp4" = none
    ∧ (∀ db : List Asset,
        MediaRoutes.scanStep (MediaRoutes.scanFileBody envEmptyFile) db "/m/empty.mp4" = db)
    ∧ (∀ (files : List String) (db : List Asset),
        (∀ a ∈ db, a.file_path ≠ "/m/empty.mp4") →
        ∀ a ∈ MediaRoutes.scan_directory (MediaRoutes.scanFileBody envEmptyFile) db files,
          a.file_path ≠ "/m/empty.mp4") :=
  C6_zero_byte_rejection envEmptyFile "/m/empty.mp4"
    ⟨0, "2025-01-01T00:00:00", "2025-01-01T00:00:00"⟩ "application/x-empty"
    rfl rfl rfl (by decide)

namespace Thumbnail

/-!  Embedding of `generate_thumbnail`
(src/backend/app/utils/extract_metadata.py lines 18-97).  One ffmpeg
invocation either raises `CalledProcessError` — possibly leaving a partial
file at the output path — or exits 0, leaving the output file at some size
or no file at all; the oracle maps the attempt index to that outcome.  The
state threaded through the loop is the file at the output path (its size),
if any. -/

/-- Outcome of one ffmpeg run (the `subprocess.run` at line 63): the file
state at the output path right after the run. -/
inductive ToolResult where
  | procError : Option ℕ → ToolResult
  | ran : Option ℕ → ToolResult
deriving DecidableEq

/-- An attempt that does not produce a valid thumbnail: a raised
`CalledProcessError`, a missing output file, or an output file under 100
bytes (deleted as corrupt at lines 69-72). -/
def isFailing : ToolResult → Bool
  | .ran (some sz) => sz < 100
  | .ran none => true
  | .procError _ => true

/-- The retry loop (lines 45-91), with `fuel` attempts left.  The triple is
(returned value, file finally at the output path, ffmpeg invocations made):
success returns the output path — represented by the validated size —
after checking the file is at least 100 bytes (lines 67-75); an undersized
file is removed and the loop continues (lines 69-72); a missing file
continues (lines 76-78); `CalledProcessError` removes any partial file and
continues, except on the last attempt, where it returns `None`
(lines 80-87); an exhausted loop returns `None` (lines 89-91). -/
def genLoop (tool : ℕ → ToolResult) : ℕ → ℕ → Option ℕ → Option ℕ × Option ℕ × ℕ
  | 0, _, file => (none, file, 0)
  | fuel + 1, attempt, _ =>
    match tool attempt with
    | .procError _ =>
      if fuel = 0 then (none, none, 1)
      else
        ((genLoop tool fuel (attempt + 1) none).1,
          (genLoop tool fuel (attempt + 1) none).2.1,
          (genLoop tool fuel (attempt + 1) none).2.2 + 1)
    | .ran fileAfter =>
      match fileAfter with
      | some sz =>
        if sz < 100 then
          ((genLoop tool fuel (attempt + 1) none).1,
            (genLoop tool fuel (attempt + 1) none).2.1,
            (genLoop tool fuel (attempt + 1) none).2.2 + 1)
        else (some sz, some sz, 1)
      | none =>
        ((genLoop tool fuel (attempt + 1) none).1,
          (genLoop tool fuel (attempt + 1) none).2.1,
          (genLoop tool fuel (attempt + 1) none).2.2 + 1)

/-- `generate_thumbnail(video_path, output_path, max_retries)`
(lines 18-97): when no output path can be derived (`MEDIA_BASE_PATH`
missing or the thumbnails directory cannot be created, lines 23-42), log
and return `None` without running the tool; otherwise run the retry loop
from attempt 0 on whatever file currently sits at the output path.  The
function is total — the outer handler at lines 93-97 means no exception
escapes. -/
def generate_thumbnail (tool : ℕ → ToolResult) (outputPathKnown : Bool)
    (initFile : Option ℕ) (maxRetries : ℕ) : Option ℕ × Option ℕ × ℕ :=
  if !outputPathKnown then (none, none, 0)
  else genLoop tool maxRetries 0 initFile

theorem genLoop_attempts_le (tool : ℕ → ToolResult) :
    ∀ (fuel attempt : ℕ) (file : Option ℕ), (genLoop tool fuel attempt file).2.2 ≤ fuel := by
  intro fuel
  induction fuel with
  | zero => intro attempt file; simp [genLoop]
  | succ f ih =>
    intro attempt file
    rw [genLoop]
    cases tool attempt with
    | procError l =>
      by_cases hf : f = 0
      · simp [hf]
      · simp only [if_neg hf]
        have := ih (attempt + 1) none
        omega
    | ran fa =>
      cases fa with
      | some sz =>
        by_cases hsz : sz < 100
        · simp only [if_pos hsz]
          have := ih (attempt + 1) none
          omega
        · simp only [if_neg hsz]
          omega
      | none =>
        have := ih (attempt + 1) none
        simp only []
        omega

theorem genLoop_success (tool : ℕ → ToolResult) :
    ∀ (fuel k attempt : ℕ) (file : Option ℕ) (sz : ℕ), k < fuel →
      tool (attempt + k) = .ran (some sz) → 100 ≤ sz →
      (∀ i, i < k → isFailing (tool (attempt + i)) = true) →
      genLoop tool fuel attempt file = (some sz, some sz, k + 1) := by
  intro fuel
  induction fuel with
  | zero => intro k attempt file sz hk; omega
  | succ f ih =>
    intro k attempt file sz hk htool hsz hfail
    rw [genLoop]
    cases k with
    | zero =>
      rw [Nat.add_zero] at htool
      rw [htool]
      simp only [if_neg (by omega : ¬ sz < 100)]
    | succ j =>
      have hfail0 : isFailing (tool attempt) = true := by
        have := hfail 0 (Nat.succ_pos j)
        rwa [Nat.add_zero] at this
      have hrec : genLoop tool f (attempt + 1) none = (some sz, some sz, j + 1) := by
        apply ih j (attempt + 1) none sz (by omega)
        · rw [show attempt + 1 + j = attempt + (j + 1) by omega]
          exact htool
        · exact hsz
        · intro i hi
          rw [show attempt + 1 + i = attempt + (i + 1) by omega]
          exact hfail (i + 1) (by omega)
      cases ht : tool attempt with
      | procError l =>
        have hf0 : ¬ f = 0 := by
          intro h0
          omega
        simp only [if_neg hf0, hrec]
      | ran fa =>
        cases fa with
        | some s =>
          have hslt : s < 100 := by
            have := hfail0
            rw [ht] at this
            simpa [isFailing] using this
          simp only [if_pos hslt, hrec]
        | none => simp only [hrec]

theorem genLoop_all_fail (tool : ℕ → ToolResult) :
    ∀ (f attempt : ℕ) (file : Option ℕ),
      (∀ i, i < f + 1 → isFailing (tool (attempt + i)) = true) →
      genLoop tool (f + 1) attempt file = (none, none, f + 1) := by
  intro f
  induction f with
  | zero =>
    intro attempt file hfail
    have h0 : isFailing (tool attempt) = true := by
      have := hfail 0 Nat.one_pos
      rwa [Nat.add_zero] at this
    rw [genLoop]
    cases ht : tool attempt with
    | procError l => simp
    | ran fa =>
      cases fa with
      | some sz =>
        have hlt : sz < 100 := by
          rw [ht] at h0
          simpa [isFailing] using h0
        simp only [if_pos hlt, genLoop]
      | none => simp only [genLoop]
  | succ g ih =>
    intro attempt file hfail
    have h0 : isFailing (tool attempt) = true := by
      have := hfail 0 (by omega)
      rwa [Nat.add_zero] at this
    have hrec : genLoop tool (g + 1) (attempt + 1) none = (none, none, g + 1) := by
      apply ih
      intro i hi
      rw [show attempt + 1 + i = attempt + (i + 1) by omega]
      exact hfail (i + 1) (by omega)
    rw [genLoop]
    cases ht : tool attempt with
    | procError l =>
      simp only [if_neg (by omega : ¬ g + 1 = 0), hrec]
    | ran fa =>
      cases fa with
      | some sz =>
        have hlt : sz < 100 := by
          rw [ht] at h0
          simpa [isFailing] using h0
        simp only [if_pos hlt, hrec]
      | none => simp only [hrec]

end Thumbnail

/-- Claim C7 — thumbnail retry bound (`generate_thumbnail`,
extract_metadata.py lines 18-97, `max_retries = 3`): the tool runs at most
3 times; if the first success (a run leaving a file of at least 100 bytes)
comes on attempt N ≤ 3 after N−1 failing attempts — each failing attempt's
partial or undersized output having been deleted — the call returns the
output path with a ≥100-byte file there after exactly N invocations; if all
3 attempts fail, it returns `None` and leaves no file at the output path.
The embedding is a total function, so no exception escapes (the handler at
lines 93-97 guarantees the same in the source). -/
theorem C7_thumbnail_retry_bound (tool : ℕ → Thumbnail.ToolResult) (initFile : Option ℕ) :
    (Thumbnail.generate_thumbnail tool true initFile 3).2.2 ≤ 3
    ∧ (∀ (k sz : ℕ), k < 3 → tool k = .ran (some sz) → 100 ≤ sz →
        (∀ i, i < k → Thumbnail.isFailing (tool i) = true) →
        Thumbnail.generate_thumbnail tool true initFile 3 = (some sz, some sz, k + 1))
    ∧ ((∀ i, i < 3 → Thumbnail.isFailing (tool i) = true) →
        Thumbnail.generate_thumbnail tool true initFile 3 = (none, none, 3)) := by
  refine ⟨?_, ?_, ?_⟩
  · exact Thumbnail.genLoop_attempts_le tool 3 0 initFile
  · intro k sz hk htool hsz hfail
    show Thumbnail.genLoop tool 3 0 initFile = (some sz, some sz, k + 1)
    apply Thumbnail.genLoop_success tool 3 k 0 initFile sz hk
    · rw [Nat.zero_add]
      exact htool
    · exact hsz
    · intro i hi
      rw [Nat.zero_add]
      exact hfail i hi
  · intro hfail
    show Thumbnail.genLoop tool 3 0 initFile = (none, none, 3)
    apply Thumbnail.genLoop_all_fail tool 2 0 initFile
    intro i hi
    rw [Nat.zero_add]
    exact hfail i hi

/-- Witness for C7: a tool that raises on attempt 0 (leaving a 10-byte
partial file) and succeeds with a 5000-byte thumbnail on attempt 1; the
call returns the path with the 5000-byte file after exactly 2 invocations. -/
theorem C7_thumbnail_retry_bound_witness :
    Thumbnail.generate_thumbnail
        (fun i => if i = 0 then .procError (some 10) else .ran (some 5000)) true none 3
      = (some 5000, some 5000, 2) :=
  (C7_thumbnail_retry_bound
      (fun i => if i = 0 then .procError (some 10) else .ran (some 5000)) none).2.1
    1 5000 (by decide) (by decide) (by decide) (by decide)

namespace Models

/-!  Embedding of the `MediaAsset` creation path
(src/backend/app/models.py lines 78-126 together with
src/backend/app/config.py).  `file_path` is declared `unique=True`
(models.py line 87): the duplicate check lives in the database schema and
would surface as an `IntegrityError` at flush.  The `@validates` hook
(lines 113-121) checks that the path exists (line 117) and then evaluates
`path.suffix.lower() not in Config.ALLOWED_EXTENSIONS` (line 119) — but
the `Config` class it imports defines no `ALLOWED_EXTENSIONS` attribute
(config.py has only `SUPPORTED_EXTENSIONS`, module-level and per-instance
in `__init__`, and nothing anywhere assigns `ALLOWED_EXTENSIONS`), so that
attribute access raises `AttributeError` on every call that reaches it. -/

/-- The `ALLOWED_EXTENSIONS` attribute looked up on the `Config` class at
models.py line 119: absent — no class body, `__init__`, or other code in
the repository defines it — so the lookup raises `AttributeError`.  `none`
models the absent attribute; a `some` value would model a defined one. -/
def allowedExtensionsAttr : Option (List String) := none

/-- The ways creating a `MediaAsset` can fail: a `ValueError` raised by the
validation hook, the `AttributeError` from the hook's read of the undefined
`Config.ALLOWED_EXTENSIONS`, or the database `IntegrityError` from the
`UNIQUE(file_path)` constraint at flush. -/
inductive CreateErr where
  | validation : String → CreateErr
  | attributeError : CreateErr
  | integrity : CreateErr
deriving DecidableEq

/-- `MediaAsset.validate_path` (models.py lines 113-121): `ValueError` when
the path does not exist (line 117); for an existing path, line 119's
attribute access on `Config` raises `AttributeError` because the attribute
is absent.  The extension-membership test that line 119 would perform is
kept under the `some` branch for a hypothetically defined attribute; with
the attribute absent the hook can never return. -/
def validate_path (fs : String → Bool) (p : String) : Except CreateErr String :=
  if !(fs p) then .error (.validation ("File not found: " ++ p))
  else
    match allowedExtensionsAttr with
    | none => .error .attributeError
    | some allowed =>
      if !(allowed.contains (pyLower (pySuffix p))) then
        .error (.validation ("Invalid file type: " ++ pySuffix p))
      else .ok p

/-- Creating and flushing one `MediaAsset` row: the validation hook runs at
attribute assignment inside `MediaAsset(...)`, and its exception propagates
out of the constructor, so no insert is staged; only if the hook accepted
would the `UNIQUE(file_path)` constraint reject a duplicate at flush with
`IntegrityError`, or the row be appended. -/
def createAsset (fs : String → Bool) (table : List Asset) (p : String) :
    Except CreateErr (List Asset) :=
  match validate_path fs p with
  | .error e => .error e
  | .ok p' =>
    if table.any (fun a => a.file_path == p') then .error .integrity
    else .ok (table ++ [⟨p'⟩])

end Models

/-- Claim C8, amended — uniqueness enforcement (models.py lines 78-126 and
config.py): no `MediaAsset` creation through models.py ever succeeds.  The
second create attempt with an existing `file_path` raises — but with the
`AttributeError` from the validation hook's read of the undefined
`Config.ALLOWED_EXTENSIONS` (for any existing file), or the hook's
`ValueError` (for a missing file), not with a duplicate-specific
validation-level error, and the very same `AttributeError` is raised when
no duplicate exists at all.  No attempt reaches the flush where the
schema-level `UNIQUE(file_path)` constraint would fire; since no attempt
returns a new table, every attempt leaves the table unchanged, so an
existing single row with that path remains the only one. -/
theorem C8_uniqueness_enforcement (fs : String → Bool) (table : List Asset) (p : String) :
    (fs p = true → Models.createAsset fs table p = .error .attributeError)
    ∧ (fs p = false →
        Models.createAsset fs table p = .error (.validation ("File not found: " ++ p)))
    ∧ (∀ t', Models.createAsset fs table p ≠ .ok t') := by
  have hexist : fs p = true →
      Models.createAsset fs table p = .error .attributeError := by
    intro hex
    have hval : Models.validate_path fs p = .error .attributeError := by
      rw [Models.validate_path, hex]
      rfl
    rw [Models.createAsset, hval]
  have hmissing : fs p = false →
      Models.createAsset fs table p = .error (.validation ("File not found: " ++ p)) := by
    intro hmiss
    have hval : Models.validate_path fs p
        = .error (.validation ("File not found: " ++ p)) := by
      rw [Models.validate_path, hmiss]
      rfl
    rw [Models.createAsset, hval]
  refine ⟨hexist, hmissing, ?_⟩
  intro t' hcontra
  cases hfs : fs p with
  | true =>
    rw [hexist hfs] at hcontra
    exact Except.noConfusion hcontra
  | false =>
    rw [hmissing hfs] at hcontra
    exact Except.noConfusion hcontra

/-- Counterexample for C8 as stated: with `/m/v.mp4` existing and a row for
it already in the table, the second create attempt raises the hook's
`AttributeError`, not a validation-level duplicate error and not the
flush-time `IntegrityError`; the identical error is raised against an empty
table, so the failure does not detect — let alone enforce — uniqueness; the
validation hook itself never returns for an existing path. -/
theorem C8_uniqueness_counterexample :
    Models.createAsset (fun q => q == "/m/v.mp4") [⟨"/m/v.mp4"⟩] "/m/v.mp4"
        = .error .attributeError
    ∧ Models.createAsset (fun q => q == "/m/v.mp4") [] "/m/v.mp4"
        = .error .attributeError
    ∧ Models.validate_path (fun q => q == "/m/v.mp4") "/m/v.mp4"
        = .error .attributeError := by
  exact ⟨rfl, rfl, rfl⟩

/-- Witness for C8: the existing-file clause of the amended theorem at the
concrete table already holding `/m/v.mp4`. -/
theorem C8_uniqueness_enforcement_witness :
    Models.createAsset (fun q => q == "/m/v.mp4") [⟨"/m/v.mp4"⟩] "/m/v.mp4"
      = .error .attributeError :=
  (C8_uniqueness_enforcement (fun q => q == "/m/v.mp4")
      [⟨"/m/v.mp4"⟩] "/m/v.mp4").1 (by decide)

namespace Routes

/-!  Embedding of the `/scan` route `scan_directories`
(src/backend/app/routes.py lines 404-444), the caller that stamps
`last_scanned`.  `process_directory` is total (see
`C2_partial_failure_isolation`), so per-file failures never keep the route
from reaching the `last_scanned` assignment; its asset list plays no role
in how the directory rows change, which is all this claim is about. -/

/-- A `media_directories` row (models.py lines 20-29). -/
structure DirRow where
  id : ℕ
  path : String
  name : String
  is_active : Bool
  last_scanned : Option ℕ
  created_at : ℕ
deriving DecidableEq

/-- Scanning one directory (routes.py lines 417-419 / 426-428): run
`process_directory`, then set `last_scanned = datetime.utcnow()`;
no other column is assigned. -/
def scanOne (now : ℕ) (d : DirRow) : DirRow := { d with last_scanned := some now }

/-- `scan_directories` (routes.py lines 404-444): with a `directory_id`,
look the row up (`get_or_404` — an absent id aborts the request and the
outer handler rolls back, leaving every row unchanged), scan it and stamp
it; without one, scan and stamp every active directory.  The final
`db.session.commit()` (line 433) persists the stamped rows. -/
def scan_directories (now : ℕ) (dirs : List DirRow) (directory_id : Option ℕ) :
    List DirRow :=
  match directory_id with
  | some did =>
    if dirs.any (fun d => d.id == did) then
      dirs.map (fun d => if d.id == did then scanOne now d else d)
    else dirs
  | none => dirs.map (fun d => if d.is_active then scanOne now d else d)

end Routes

/-- Claim C9 — last_scanned update (routes.py `scan_directories`, lines
404-444): after a scan pass over a registered MediaDirectory — by id or as
part of the scan-all-active pass, and regardless of per-file failures,
since `process_directory` is total — the scanned directory's row carries
`last_scanned = now` while its id, path, name, active flag and creation
time are unchanged; rows of directories that were not scanned are not
touched at all. -/
theorem C9_last_scanned_update (now : ℕ) (dirs : List Routes.DirRow) (did : ℕ)
    (hmem : dirs.any (fun d => d.id == did) = true) :
    ((Routes.scan_directories now dirs (some did)).length = dirs.length
      ∧ ∀ d' ∈ Routes.scan_directories now dirs (some did), ∃ d ∈ dirs,
          d'.id = d.id ∧ d'.path = d.path ∧ d'.name = d.name
          ∧ d'.is_active = d.is_active ∧ d'.created_at = d.created_at
          ∧ (d.id = did → d'.last_scanned = some now)
          ∧ (d.id ≠ did → d' = d))
    ∧ ((Routes.scan_directories now dirs none).length = dirs.length
      ∧ ∀ d' ∈ Routes.scan_directories now dirs none, ∃ d ∈ dirs,
          d'.id = d.id ∧ d'.path = d.path ∧ d'.name = d.name
          ∧ d'.is_active = d.is_active ∧ d'.created_at = d.created_at
          ∧ (d.is_active = true → d'.last_scanned = some now)
          ∧ (d.is_active = false → d' = d)) := by
  constructor
  · rw [Routes.scan_directories, if_pos hmem]
    refine ⟨List.length_map _ _, ?_⟩
    intro d' hd'
    rcases List.mem_map.mp hd' with ⟨d, hd, hmap⟩
    refine ⟨d, hd, ?_⟩
    by_cases hid : d.id == did
    · rw [if_pos hid] at hmap
      subst hmap
      exact ⟨rfl, rfl, rfl, rfl, rfl, fun _ => rfl,
        fun hne => absurd (by simpa using hid) hne⟩
    · rw [if_neg hid] at hmap
      subst hmap
      refine ⟨rfl, rfl, rfl, rfl, rfl, ?_, fun _ => rfl⟩
      intro heq
      exact absurd (by simp [heq]) hid
  · rw [Routes.scan_directories]
    refine ⟨List.length_map _ _, ?_⟩
    intro d' hd'
    rcases List.mem_map.mp hd' with ⟨d, hd, hmap⟩
    refine ⟨d, hd, ?_⟩
    by_cases hact : d.is_active = true
    · rw [if_pos hact] at hmap
      subst hmap
      exact ⟨rfl, rfl, rfl, rfl, rfl, fun _ => rfl,
        fun hfalse => absurd hact (by simp [hfalse])⟩
    · rw [if_neg hact] at hmap
      subst hmap
      exact ⟨rfl, rfl, rfl, rfl, rfl, fun htrue => absurd htrue hact, fun _ => rfl⟩

/-- Witness for C9: a table with one active registered directory (id 1,
already scanned at time 5) and one inactive directory; scanning directory 1
at time 42. -/
theorem C9_last_scanned_update_witness :
    ((Routes.scan_directories 42
        [⟨1, "/m", "media", true, some 5, 0⟩, ⟨2, "/n", "other", false, none, 0⟩]
        (some 1)).length = 2
      ∧ ∀ d' ∈ Routes.scan_directories 42
          [⟨1, "/m", "media", true, some 5, 0⟩, ⟨2, "/n", "other", false, none, 0⟩]
          (some 1), ∃ d ∈ [Routes.DirRow.mk 1 "/m" "media" true (some 5) 0,
            Routes.DirRow.mk 2 "/n" "other" false none 0],
          d'.id = d.id ∧ d'.path = d.path ∧ d'.name = d.name
          ∧ d'.is_active = d.is_active ∧ d'.created_at = d.created_at
          ∧ (d.id = 1 → d'.last_scanned = some 42)
          ∧ (d.id ≠ 1 → d' = d))
    ∧ ((Routes.scan_directories 42
        [⟨1, "/m", "media", true, some 5, 0⟩, ⟨2, "/n", "other", false, none, 0⟩]
        none).length = 2
      ∧ ∀ d' ∈ Routes.scan_directories 42
          [⟨1, "/m", "media", true, some 5, 0⟩, ⟨2, "/n", "other", false, none, 0⟩]
          none, ∃ d ∈ [Routes.DirRow.mk 1 "/m" "media" true (some 5) 0,
            Routes.DirRow.mk 2 "/n" "other" false none 0],
          d'.id = d.id ∧ d'.path = d.path ∧ d'.name = d.name
          ∧ d'.is_active = d.is_active ∧ d'.created_at = d.created_at
          ∧ (d.is_active = true → d'.last_scanned = some 42)
          ∧ (d.is_active = false → d' = d)) :=
  C9_last_scanned_update 42
    [⟨1, "/m", "media", true, some 5, 0⟩, ⟨2, "/n", "other", false, none, 0⟩]
    1 (by decide)

end MamPoc
